import Mathlib

/-!
Verification of the `pridexyz` Modrinth API client
(`src/pridexyz/modrinth/api.py`): a shallow embedding of its rate-limit
tracker, transport retry configuration, request executor, per-thread session
registry, parallel batch executor and the game-version cutoff helpers, with
theorems checking the specified behaviour.

Python integers are modelled as `Int` (they are unbounded), header values as
`Option String` (a header is present or absent), exceptions as explicit
result constructors, and the thread interleaving of the batch executor as an
explicit completion order (a permutation of the item indices).
-/

/-- A JSON value, as produced by `response.json()`. -/
inductive JVal where
  | obj (fields : List (String × JVal))
  | arr (elems : List JVal)
  | str (s : String)
  | num (n : Int)
  | boolean (b : Bool)
  | null

/-- Type `DictKV` from `pridexyz.modrinth.types`: a JSON-like string-keyed
mapping, modelled as an association list (Python dict keys are unique; a
first-match lookup agrees with dict lookup on such lists). -/
abbrev DictKV : Type := List (String × JVal)

/-- Python `d.get(k)` on a `DictKV`. -/
def dictGet (d : DictKV) (k : String) : Option JVal :=
  match d with
  | [] => none
  | (k', v) :: rest => if k' = k then some v else dictGet rest k

/-- Digit-string to number; `none` when empty or a non-digit appears. -/
def digitsToNat (cs : List Char) : Option Nat :=
  if cs = [] then none
  else cs.foldl (fun acc c =>
    match acc with
    | none => none
    | some n => if c.isDigit then some (n * 10 + (c.toNat - 48)) else none) (some 0)

/-- Surrounding whitespace stripped, as Python `int` does before parsing. -/
def pyStrip (cs : List Char) : List Char :=
  ((cs.dropWhile (fun c => c.isWhitespace)).reverse.dropWhile
    (fun c => c.isWhitespace)).reverse

/-- Model of Python `int(s)` on a string: optional surrounding whitespace,
optional sign, then decimal digits; `none` models the raised `ValueError`. -/
def pyInt (s : String) : Option Int :=
  match pyStrip s.toList with
  | '-' :: rest => (digitsToNat rest).map (fun n => -(n : Int))
  | '+' :: rest => (digitsToNat rest).map (fun n => (n : Int))
  | cs => (digitsToNat cs).map (fun n => (n : Int))

/-- The rate-limit tracker state of `ModrinthAPI`: the fields
`_ratelimit_limit`, `_ratelimit_remaining`, `_ratelimit_reset` and
`_ratelimit_last_checked`, all mutated only under `_ratelimit_lock`. -/
structure RLState where
  limit : Int
  remaining : Int
  reset : Int
  last_checked : Int
  deriving Repr, DecidableEq

/-- The three rate-limit response headers, each present or absent. -/
structure RLHeaders where
  limit : Option String
  remaining : Option String
  reset : Option String
  deriving Repr, DecidableEq

/-- Model of `int(response.headers.get(name, dflt))`: an absent header yields the
(integer) default unchanged, a present header is parsed and may fail. -/
def parseField (header : Option String) (dflt : Int) : Option Int :=
  match header with
  | none => some dflt
  | some s => pyInt s

/-- Method `ModrinthAPI._update_ratelimit`: parse the three headers inside one
`try`; if any `int()` call raises, fall back to the previous `limit` and
`remaining` and to `0` for `reset` (the defaults of the `except` branch);
note the default for an absent `X-Ratelimit-Reset` header is `0`, not the
prior value.  `last_checked` is set to the current time either way, and no
exception escapes. -/
def update_ratelimit (st : RLState) (h : RLHeaders) (now : Int) : RLState :=
  match parseField h.limit st.limit, parseField h.remaining st.remaining,
        parseField h.reset 0 with
  | some l, some r, some rs =>
      { limit := l, remaining := r, reset := rs, last_checked := now }
  | _, _, _ =>
      { limit := st.limit, remaining := st.remaining, reset := 0,
        last_checked := now }

/-- Method `ModrinthAPI._respect_ratelimit`: under the lock, return immediately when
`remaining > 0`; otherwise capture `reset` as `sleep_time`, set
`remaining := limit` and `reset := 0`, release the lock, and sleep
`sleep_time` seconds (only when positive) outside the lock.  Returns the new
state and the number of seconds slept. -/
def respect_ratelimit (st : RLState) : RLState × Int :=
  if st.remaining > 0 then (st, 0)
  else
    let sleep_time := st.reset
    let st' : RLState := { st with remaining := st.limit, reset := 0 }
    (st', if sleep_time > 0 then sleep_time else 0)

/-- C1: `await_capacity` (`_respect_ratelimit`) follows the optimistic-reset
algorithm: with `remaining > 0` it returns at once without sleeping and
leaves the state unchanged; with `remaining ≤ 0` it sleeps for the captured
`reset` (when nonnegative), the new state has `remaining = limit` and
`reset = 0`, and (when `limit > 0`) an immediately subsequent call returns
without blocking and without changing the state again. -/
theorem c1_respect_ratelimit_optimistic_reset (st : RLState) :
    (0 < st.remaining → respect_ratelimit st = (st, 0)) ∧
    (st.remaining ≤ 0 →
      (0 ≤ st.reset → (respect_ratelimit st).2 = st.reset) ∧
      (respect_ratelimit st).1 =
        { st with remaining := st.limit, reset := 0 } ∧
      (0 < st.limit →
        respect_ratelimit (respect_ratelimit st).1 =
          ((respect_ratelimit st).1, 0))) := by
  constructor
  · intro h
    simp [respect_ratelimit, h]
  · intro h
    have hnot : ¬ st.remaining > 0 := not_lt.mpr h
    refine ⟨?_, ?_, ?_⟩
    · intro hr
      simp only [respect_ratelimit, if_neg hnot]
      rcases lt_or_eq_of_le hr with h0 | h0
      · simp [h0]
      · simp [← h0]
    · simp [respect_ratelimit, hnot]
    · intro hl
      simp [respect_ratelimit, hnot, hl]

/-- Witness for C1 at the concrete state
`{limit := 300, remaining := 0, reset := 7, last_checked := 0}`. -/
theorem c1_respect_ratelimit_optimistic_reset_witness :
    (respect_ratelimit ⟨300, 0, 7, 0⟩).2 = 7 ∧
    (respect_ratelimit ⟨300, 0, 7, 0⟩).1 = ⟨300, 300, 0, 0⟩ ∧
    respect_ratelimit (respect_ratelimit ⟨300, 0, 7, 0⟩).1 =
      ((respect_ratelimit ⟨300, 0, 7, 0⟩).1, 0) := by
  have h := (c1_respect_ratelimit_optimistic_reset ⟨300, 0, 7, 0⟩).2 (by decide)
  exact ⟨h.1 (by decide), h.2.1, h.2.2 (by decide)⟩

/-- C2 counterexample: with prior state
`{limit := 300, remaining := 300, reset := 5}` and a response carrying none
of the three rate-limit headers, `_update_ratelimit` raises nothing but does
change the tracked state: `reset` becomes `0`, not the prior `5`. -/
theorem c2_counterexample :
    (update_ratelimit ⟨300, 300, 5, 0⟩ ⟨none, none, none⟩ 1).reset = 0 ∧
    (⟨300, 300, 5, 0⟩ : RLState).reset ≠ 0 := by
  constructor
  · rfl
  · decide

/-- C2 amended: on a response with missing or unparsable rate-limit headers,
`_update_ratelimit` raises no exception and falls back per field: a missing
`limit` or `remaining` header keeps the prior value, a missing `reset`
header falls back to `0` (not the prior value), and when any present header
fails integer parsing all three fall back together — `limit` and
`remaining` to the prior values and `reset` to `0`. -/
theorem c2_update_ratelimit_fallback (st : RLState) (h : RLHeaders)
    (now : Int) :
    (h.limit = none → (update_ratelimit st h now).limit = st.limit) ∧
    (h.remaining = none →
      (update_ratelimit st h now).remaining = st.remaining) ∧
    (h.reset = none → (update_ratelimit st h now).reset = 0) ∧
    ((parseField h.limit st.limit).isNone ∨
     (parseField h.remaining st.remaining).isNone ∨
     (parseField h.reset 0).isNone →
      update_ratelimit st h now =
        { limit := st.limit, remaining := st.remaining, reset := 0,
          last_checked := now }) := by
  refine ⟨?_, ?_, ?_, ?_⟩
  · intro hl
    unfold update_ratelimit
    rcases hr : parseField h.remaining st.remaining with _ | r <;>
      rcases hs : parseField h.reset 0 with _ | s <;>
        simp [hl, parseField, hr, hs]
  · intro hrm
    unfold update_ratelimit
    rcases hl : parseField h.limit st.limit with _ | l <;>
      rcases hs : parseField h.reset 0 with _ | s <;>
        simp [hrm, parseField, hl, hs]
  · intro hrs
    unfold update_ratelimit
    rcases hl : parseField h.limit st.limit with _ | l <;>
      rcases hr : parseField h.remaining st.remaining with _ | r <;>
        simp [hrs, parseField, hl, hr]
  · intro hfail
    unfold update_ratelimit
    rcases hl : parseField h.limit st.limit with _ | l <;>
      rcases hr : parseField h.remaining st.remaining with _ | r <;>
        rcases hs : parseField h.reset 0 with _ | s <;>
          simp_all

/-- Python truthiness of a JSON value: empty containers, the empty string,
zero, `False` and `None` are falsy. -/
def jvalTruthy : JVal → Bool
  | .obj fields => !fields.isEmpty
  | .arr elems => !elems.isEmpty
  | .str s => !(s == "")
  | .num n => n != 0
  | .boolean b => b
  | .null => false

/-- Structure `ModrinthAPIError` after `__init__` ran: the `response` attribute as a
JSON value (`none` would model Python `None`). -/
structure ModrinthAPIError where
  message : String
  status_code : Option Nat
  response : Option JVal

/-- Constructor `ModrinthAPIError.__init__(message, status_code=None, response=None)`:
stores `response or {}`, so a `None` (or otherwise falsy) argument becomes
the empty mapping; the parameter is annotated `Optional[Dict[str, Any]]`,
but `_request` passes whatever `response.json()` returned, so the argument
is modelled as an arbitrary JSON value. -/
def mkModrinthAPIError (message : String) (status_code : Option Nat)
    (response : Option JVal) : ModrinthAPIError :=
  { message := message, status_code := status_code,
    response := some (match response with
      | none => JVal.obj []
      | some v => if jvalTruthy v then v else JVal.obj []) }

/-- C9: constructing a `ModrinthAPIError` with `response` omitted (`None`)
yields the empty mapping; for every argument respecting the parameter's
`Optional[Dict[str, Any]]` annotation the stored attribute is a mapping,
and for every argument whatsoever it is never `None`. -/
theorem c9_error_response_never_null (msg : String) (sc : Option Nat)
    (d : DictKV) (resp : Option JVal) :
    (mkModrinthAPIError msg sc none).response = some (JVal.obj []) ∧
    (∃ d', (mkModrinthAPIError msg sc (some (JVal.obj d))).response
        = some (JVal.obj d')) ∧
    ((mkModrinthAPIError msg sc resp).response).isSome = true := by
  refine ⟨rfl, ?_, ?_⟩
  · by_cases h : d.isEmpty
    · exact ⟨[], by simp [mkModrinthAPIError, jvalTruthy, h]⟩
    · exact ⟨d, by simp [mkModrinthAPIError, jvalTruthy, h]⟩
  · cases resp with
    | none => rfl
    | some v => rfl

/-- Python `version.get("version") == cutoff_version`: equal exactly when
the key is present with a string value equal to the cutoff (`None` and
non-string JSON values are never `==` a `str`). -/
def pyEqVersion : Option JVal → String → Bool
  | some (JVal.str s), cutoff => s == cutoff
  | _, _ => false

/-- Module-level `cut_game_versions_until`: append each version to the
result and break after the first whose `"version"` key equals the cutoff. -/
def cut_game_versions_until (cutoff_version : String)
    (versions : List DictKV) : List DictKV :=
  match versions with
  | [] => []
  | v :: rest =>
    if pyEqVersion (dictGet v ("version")) cutoff_version then [v]
    else v :: cut_game_versions_until cutoff_version rest

/-- Method `ModrinthAPI.get_game_versions_until`: fetches the game versions with
`get_game_versions()` and runs the same append-then-break loop inline; the
fetched list is passed explicitly here. -/
def get_game_versions_until (cutoff_version : String)
    (fetched : List DictKV) : List DictKV :=
  match fetched with
  | [] => []
  | v :: rest =>
    if pyEqVersion (dictGet v ("version")) cutoff_version then [v]
    else v :: get_game_versions_until cutoff_version rest

/-- C10: for every cutoff and fetched list, `get_game_versions_until`
computes exactly `cut_game_versions_until` on that cutoff and list, and the
common result is the prefix up to and including the first element whose
`"version"` key equals the cutoff (the whole list when none matches). -/
theorem c10_get_game_versions_until_refines_cut (cutoff : String)
    (versions : List DictKV) :
    get_game_versions_until cutoff versions =
      cut_game_versions_until cutoff versions ∧
    cut_game_versions_until cutoff versions =
      versions.takeWhile (fun v => !pyEqVersion (dictGet v ("version")) cutoff)
        ++ (versions.dropWhile
              (fun v => !pyEqVersion (dictGet v ("version")) cutoff)).take 1 := by
  induction versions with
  | nil => exact ⟨rfl, rfl⟩
  | cons v rest ih =>
    constructor
    · by_cases h : pyEqVersion (dictGet v ("version")) cutoff = true
      · simp [get_game_versions_until, cut_game_versions_until, h]
      · simp [get_game_versions_until, cut_game_versions_until, h, ih.1]
    · by_cases h : pyEqVersion (dictGet v ("version")) cutoff = true
      · simp [cut_game_versions_until, List.takeWhile, List.dropWhile, h]
      · simp [cut_game_versions_until, List.takeWhile, List.dropWhile, h,
          ih.2]

/-- An HTTP response as the executor sees it: status, body text, the result
of `response.json()` (`none` when the body does not parse as JSON), and the
rate-limit headers. -/
structure HTTPResponse where
  status_code : Nat
  text : String
  jsonParse : Option JVal
  headers : RLHeaders

/-- Failures not tied to an HTTP failure status: raised by the transport
(or by JSON decoding of a success body) and re-raised unchanged by
`_request`'s generic `except` handler.  `retryExhausted` models the
`RetryError` requests raises from urllib3's `MaxRetryError` when the retry
budget runs out — a `RequestException` but not an `HTTPError`. -/
inductive TransportError where
  | retryExhausted
  | connectionError
  | timeoutError
  | jsonDecodeError
  deriving Repr, DecidableEq

/-- requests `raise_for_status` raises `HTTPError` exactly for 4xx/5xx. -/
def isFailureStatus (s : Nat) : Bool := 400 ≤ s && s < 600

/-- requests `Response.__bool__`, which is `Response.ok`: `False` exactly
when `raise_for_status` would raise. -/
def respTruthy (r : HTTPResponse) : Bool := !(isFailureStatus r.status_code)

/-- The `str(e)` of the `HTTPError` raised by `raise_for_status` (the exact
wording comes from the requests library; only the status matters here). -/
def httpErrorMessage (s : Nat) : String := toString s ++ " Error"

/-- Configuration `Retry(total=5, ...)` from `_make_session`: the retry budget. -/
def retryTotal : Nat := 5

/-- Configuration `backoff_factor=0.3` from `_make_session`, in tenths of a second. -/
def backoffFactorTenths : Nat := 3

/-- Configuration `status_forcelist=[429, 500, 502, 503, 504]` from `_make_session`. -/
def statusForcelist : List Nat := [429, 500, 502, 503, 504]

/-- urllib3 `Retry.get_backoff_time` in tenths of a second: `0` for the
first retry, then `backoff_factor * 2 ^ (errors - 1)`, capped at the
default `backoff_max` of 120 s. -/
def backoffTimeTenths (consecutiveErrors : Nat) : Nat :=
  if consecutiveErrors ≤ 1 then 0
  else min 1200 (backoffFactorTenths * 2 ^ (consecutiveErrors - 1))

/-- Result of one `session.request` call on the session configured by
`_make_session`: the terminal result, how many HTTP attempts were made, and
the backoff sleeps (tenths of a second) between attempts. -/
structure SessionResult where
  result : Except TransportError HTTPResponse
  attempts : Nat
  sleepsTenths : List Nat

/-- urllib3's status-forcelist retry loop under the configuration installed
by `_make_session`: `stream n` is the response to the `n`-th attempt and
`eligible` is whether the method is in urllib3's default allowed methods
(e.g. GET).  A forced status consumes one retry and sleeps the backoff;
exhausting the budget raises `MaxRetryError`, which requests surfaces as a
`RetryError` (modelled `retryExhausted`), never as an `HTTPError`. -/
def sessionRequestGo (eligible : Bool) (stream : Nat → HTTPResponse) :
    Nat → Nat → List Nat → SessionResult
  | left, attempt, sleeps =>
    let r := stream attempt
    if eligible && statusForcelist.contains r.status_code then
      match left with
      | 0 => ⟨.error .retryExhausted, attempt + 1, sleeps⟩
      | left' + 1 =>
        sessionRequestGo eligible stream left' (attempt + 1)
          (sleeps ++ [backoffTimeTenths (retryTotal - left')])
    else ⟨.ok r, attempt + 1, sleeps⟩

/-- Model of `session.request` on a session from `_make_session`, starting with the
full retry budget. -/
def sessionRequest (eligible : Bool) (stream : Nat → HTTPResponse) :
    SessionResult :=
  sessionRequestGo eligible stream retryTotal 0 []

/-- Outcome of `ModrinthAPI._request`: a returned JSON body, a raised
`ModrinthAPIError`, or a non-HTTP-status failure re-raised unchanged. -/
inductive RequestOutcome where
  | ok (body : JVal)
  | apiError (e : ModrinthAPIError)
  | transport (e : TransportError)

/-- Whether an outcome is a raised `ModrinthAPIError`. -/
def isApiErrorOutcome : RequestOutcome → Bool
  | .apiError _ => true
  | _ => false

/-- The response-classification part of `ModrinthAPI._request`: given the
tracker state, the current time and the result of `session.request`, update
the rate-limit tracker from the response headers (before the status is
classified), then `raise_for_status`: on a failure status build the error
body (`response.json()`, falling back to `{"error": response.text if
response else "No response"}` — note `if response` tests requests'
truthiness, which is `False` for a failure-status response) and raise
`ModrinthAPIError(str(e), status_code=response.status_code if response else
None, response=error_json)`; on a success status return `response.json()
if response.text else {}`.  A transport error bypasses the update and is
re-raised unchanged. -/
def request (st : RLState) (now : Int)
    (tr : Except TransportError HTTPResponse) : RLState × RequestOutcome :=
  match tr with
  | .error e => (st, .transport e)
  | .ok r =>
    let st2 := update_ratelimit st r.headers now
    if isFailureStatus r.status_code then
      let error_json : JVal :=
        match r.jsonParse with
        | some j => j
        | none =>
          JVal.obj [("error",
            JVal.str (if respTruthy r then r.text else ("No response")))]
      (st2, .apiError (mkModrinthAPIError (httpErrorMessage r.status_code)
        (if respTruthy r then some r.status_code else none)
        (some error_json)))
    else
      if r.text == "" then (st2, .ok (JVal.obj []))
      else
        match r.jsonParse with
        | some j => (st2, .ok j)
        | none => (st2, .transport .jsonDecodeError)

/-- One forced-status step of the retry loop: a 429 with retries left
consumes one retry and records the backoff sleep. -/
theorem sessionRequestGo_step (stream : Nat → HTTPResponse)
    (left' attempt : Nat) (sleeps : List Nat)
    (h : (stream attempt).status_code = 429) :
    sessionRequestGo true stream (left' + 1) attempt sleeps =
      sessionRequestGo true stream left' (attempt + 1)
        (sleeps ++ [backoffTimeTenths (retryTotal - left')]) := by
  rw [sessionRequestGo]
  simp [h, statusForcelist]

/-- A 429 with no retries left raises the retry-exhaustion error. -/
theorem sessionRequestGo_exhaust (stream : Nat → HTTPResponse)
    (attempt : Nat) (sleeps : List Nat)
    (h : (stream attempt).status_code = 429) :
    sessionRequestGo true stream 0 attempt sleeps =
      ⟨.error .retryExhausted, attempt + 1, sleeps⟩ := by
  rw [sessionRequestGo]
  simp [h, statusForcelist]

/-- C3 amended: when every attempt of a retry-eligible request returns 429,
the transport retries up to the budget of 5 (6 attempts in all) with
strictly increasing exponential backoff, and after the budget is exhausted
the failure surfaces from `_request` as a transport-level retry-exhaustion
error (requests `RetryError`) propagated unchanged — not as a
`ModrinthAPIError`. -/
theorem c3_always_429_exhausts_retries_as_transport_error
    (stream : Nat → HTTPResponse) (h : ∀ n, (stream n).status_code = 429)
    (st : RLState) (now : Int) :
    (sessionRequest true stream).attempts = retryTotal + 1 ∧
    (sessionRequest true stream).sleepsTenths = [0, 6, 12, 24, 48] ∧
    List.Chain' (· < ·) (sessionRequest true stream).sleepsTenths ∧
    (sessionRequest true stream).result =
      .error .retryExhausted ∧
    request st now (sessionRequest true stream).result =
      (st, .transport .retryExhausted) := by
  have hs : sessionRequest true stream =
      ⟨.error .retryExhausted, 6, [0, 6, 12, 24, 48]⟩ := by
    rw [sessionRequest, show retryTotal = 5 from rfl,
      show (5 : Nat) = 4 + 1 from rfl, sessionRequestGo_step stream 4 0 [] (h 0),
      show (4 : Nat) = 3 + 1 from rfl, sessionRequestGo_step stream 3 1 _ (h 1),
      show (3 : Nat) = 2 + 1 from rfl, sessionRequestGo_step stream 2 2 _ (h 2),
      show (2 : Nat) = 1 + 1 from rfl, sessionRequestGo_step stream 1 3 _ (h 3),
      show (1 : Nat) = 0 + 1 from rfl, sessionRequestGo_step stream 0 4 _ (h 4),
      sessionRequestGo_exhaust stream 5 _ (h 5)]
    rfl
  rw [hs]
  refine ⟨rfl, rfl, ?_, rfl, rfl⟩
  show List.Chain' (· < ·) [0, 6, 12, 24, 48]
  norm_num [List.chain'_cons]

/-- Witness for the amended C3 at the concrete always-429 transport. -/
theorem c3_always_429_exhausts_retries_witness :
    (sessionRequest true
        (fun _ => ⟨429, "", none, ⟨none, none, none⟩⟩)).attempts =
      retryTotal + 1 ∧
    (sessionRequest true
        (fun _ => ⟨429, "", none, ⟨none, none, none⟩⟩)).sleepsTenths =
      [0, 6, 12, 24, 48] ∧
    List.Chain' (· < ·)
      (sessionRequest true
        (fun _ => ⟨429, "", none, ⟨none, none, none⟩⟩)).sleepsTenths ∧
    (sessionRequest true
        (fun _ => ⟨429, "", none, ⟨none, none, none⟩⟩)).result =
      .error .retryExhausted ∧
    request ⟨300, 300, 0, 0⟩ 0
        (sessionRequest true
          (fun _ => ⟨429, "", none, ⟨none, none, none⟩⟩)).result =
      (⟨300, 300, 0, 0⟩, .transport .retryExhausted) :=
  c3_always_429_exhausts_retries_as_transport_error
    (fun _ => ⟨429, "", none, ⟨none, none, none⟩⟩) (fun _ => rfl)
    ⟨300, 300, 0, 0⟩ 0

/-- C3 counterexample: at the concrete always-429 transport (retry-eligible
method), the outcome of `_request` after retry exhaustion is the transport
failure re-raised unchanged — it is not a raised `ModrinthAPIError`, contrary
to the claim. -/
theorem c3_counterexample :
    (request ⟨300, 300, 0, 0⟩ 0
      (sessionRequest true
        (fun _ => ⟨429, "", none, ⟨none, none, none⟩⟩)).result).2 =
      RequestOutcome.transport TransportError.retryExhausted ∧
    isApiErrorOutcome
      ((request ⟨300, 300, 0, 0⟩ 0
        (sessionRequest true
          (fun _ => ⟨429, "", none, ⟨none, none, none⟩⟩)).result).2) =
      false := by
  exact ⟨rfl, rfl⟩

/-- C6: evaluation at the failing input.  For a 404 response with the
unparsable body `"not found"`, `_request` does raise a `ModrinthAPIError`,
but — because `response.status_code if response else None` and
`response.text if response else "No response"` test requests' `Response`
truthiness, which is `False` for every failure status — the raised error
carries `status_code = None` and `response = {"error": "No response"}`
instead of the actual status `404` and the raw body text. -/
theorem c6_request_status_truthiness_bug :
    (request ⟨300, 299, 60, 0⟩ 1
      (.ok ⟨404, "not found", none, ⟨none, none, none⟩⟩)).2 =
      .apiError
        { message := httpErrorMessage 404, status_code := none,
          response := some (JVal.obj [("error", JVal.str ("No response"))]) } :=
  rfl

/-- C7: for every HTTP response the executor receives — success or failure
status alike — the rate-limit tracker is updated from the response headers
before the status is classified; on a success status the parsed JSON body
is returned, or the empty mapping when the body is empty. -/
theorem c7_request_observes_headers_then_returns_body (st : RLState)
    (now : Int) (r : HTTPResponse) :
    (request st now (.ok r)).1 = update_ratelimit st r.headers now ∧
    (isFailureStatus r.status_code = false →
      (r.text = "" → (request st now (.ok r)).2 = .ok (JVal.obj [])) ∧
      (∀ j, r.text ≠ "" → r.jsonParse = some j →
        (request st now (.ok r)).2 = .ok j)) := by
  constructor
  · unfold request
    by_cases hf : isFailureStatus r.status_code
    · simp [hf]
    · by_cases ht : r.text == ""
      · simp [hf, ht]
      · cases hj : r.jsonParse <;> simp [hf, ht, hj]
  · intro hf
    constructor
    · intro ht
      simp [request, hf, ht]
    · intro j ht hj
      simp [request, hf, hj, ht]

/-- Witness for C7 at a 200 response with empty body and at a 200 response
with the parsed body `{"ok": true}`. -/
theorem c7_request_observes_headers_witness :
    (request ⟨300, 300, 60, 0⟩ 1
      (.ok ⟨200, "", none, ⟨none, none, none⟩⟩)).1 =
      update_ratelimit ⟨300, 300, 60, 0⟩ ⟨none, none, none⟩ 1 ∧
    (request ⟨300, 300, 60, 0⟩ 1
      (.ok ⟨200, "", none, ⟨none, none, none⟩⟩)).2 = .ok (JVal.obj []) ∧
    (request ⟨300, 300, 60, 0⟩ 1
      (.ok ⟨200, "x",
        some (JVal.obj [("ok", JVal.boolean true)]), ⟨none, none, none⟩⟩)).2 =
      .ok (JVal.obj [("ok", JVal.boolean true)]) := by
  have h1 := c7_request_observes_headers_then_returns_body ⟨300, 300, 60, 0⟩ 1
    ⟨200, "", none, ⟨none, none, none⟩⟩
  have h2 := c7_request_observes_headers_then_returns_body ⟨300, 300, 60, 0⟩ 1
    ⟨200, "x", some (JVal.obj [("ok", JVal.boolean true)]), ⟨none, none, none⟩⟩
  refine ⟨h1.1, (h1.2 (by decide)).1 rfl, ?_⟩
  exact (h2.2 (by decide)).2 (JVal.obj [("ok", JVal.boolean true)])
    (by decide) rfl

/-- A work item of `parallel_requests` is a zero-argument callable; calling
it either returns a value (`Except.ok`) or raises (`Except.error`), so an
item is modelled by its behaviour when called. -/
abbrev WorkItem (E A : Type) : Type := Except E A

/-- The `wrapper` closure of `parallel_requests`: call the item, catch any
raised exception and return it as the captured outcome — in this model the
captured outcome is exactly the item's behaviour. -/
def wrapper {E A : Type} (item : WorkItem E A) : Except E A := item

/-- One completed future: write the captured outcome of item `k` at index
`k` of the results array (`results[idx] = future.result()`). -/
def writeResult {E A : Type} (items : List (WorkItem E A))
    (res : List (Option (Except E A))) (k : Nat) :
    List (Option (Except E A)) :=
  match items[k]? with
  | some it => res.set k (some (wrapper it))
  | none => res

/-- The collection loop of `parallel_requests`: starting from
`results = [None] * len(requests_list)`, process the completed futures in
completion order (`order`, arbitrary — `as_completed` yields them in any
order, whatever `max_parallel` is) and store each captured outcome at the
index `future_to_index` assigned to it. -/
def assembleResults {E A : Type} (items : List (WorkItem E A))
    (order : List Nat) : List (Option (Except E A)) :=
  order.foldl (writeResult items) (List.replicate items.length none)

/-- The re-raise scan of `parallel_requests` over the filled results:
`for r in results: if isinstance(r, Exception): raise r`. -/
def firstErrorOpt {E A : Type} : List (Option (Except E A)) → Option E
  | [] => none
  | some (.error e) :: _ => some e
  | _ :: rest => firstErrorOpt rest

/-- The first captured exception of a batch, in input order. -/
def firstError {E A : Type} : List (WorkItem E A) → Option E
  | [] => none
  | .error e :: _ => some e
  | .ok _ :: rest => firstError rest

/-- Method `ModrinthAPI.parallel_requests` end to end: run all items (the
completion order `order` abstracts the thread pool's scheduling), assemble
the outcomes positionally, then re-raise the first captured exception if
any, else return the results. -/
def parallel_requests {E A : Type} (items : List (WorkItem E A))
    (order : List Nat) : Except E (List (Option (Except E A))) :=
  let results := assembleResults items order
  match firstErrorOpt results with
  | some e => .error e
  | none => .ok results

/-- Step `writeResult` keeps the results array's length. -/
theorem writeResult_length {E A : Type} (items : List (WorkItem E A))
    (res : List (Option (Except E A))) (k : Nat) :
    (writeResult items res k).length = res.length := by
  unfold writeResult
  cases items[k]? <;> simp

/-- The collection loop keeps the results array's length. -/
theorem foldl_writeResult_length {E A : Type} (items : List (WorkItem E A))
    (order : List Nat) :
    ∀ res, (order.foldl (writeResult items) res).length = res.length := by
  induction order with
  | nil => intro res; rfl
  | cons k rest ih =>
    intro res
    simpa [writeResult_length] using ih (writeResult items res k)

/-- An index no completed future maps to keeps its previous slot. -/
theorem foldl_writeResult_getElem_not_mem {E A : Type}
    (items : List (WorkItem E A)) (order : List Nat) :
    ∀ res i, i ∉ order →
      (order.foldl (writeResult items) res)[i]? = res[i]? := by
  induction order with
  | nil => intro res i _; rfl
  | cons k rest ih =>
    intro res i hi
    have hik : i ≠ k := fun h => hi (h ▸ List.mem_cons_self k rest)
    have hirest : i ∉ rest := fun h => hi (List.mem_cons_of_mem k h)
    have : (writeResult items res k)[i]? = res[i]? := by
      unfold writeResult
      cases items[k]? with
      | none => rfl
      | some it => exact List.getElem?_set_ne (Ne.symm hik)
    simpa [this] using ih (writeResult items res k) i hirest

/-- An index some completed future maps to ends up holding exactly its own
item's captured outcome (every write to a slot writes the same value, so
the completion order is irrelevant). -/
theorem foldl_writeResult_getElem_mem {E A : Type}
    (items : List (WorkItem E A)) (order : List Nat) :
    ∀ res i it, res.length = items.length → i ∈ order →
      items[i]? = some it →
      (order.foldl (writeResult items) res)[i]? = some (some (wrapper it)) := by
  induction order with
  | nil =>
    intro res i it _ hmem _
    exact absurd hmem (List.not_mem_nil i)
  | cons k rest ih =>
    intro res i it hlen hmem hit
    by_cases hirest : i ∈ rest
    · exact ih (writeResult items res k) i it
        ((writeResult_length items res k).trans hlen) hirest hit
    · have hik : i = k := by
        rcases List.mem_cons.mp hmem with h | h
        · exact h
        · exact absurd h hirest
      subst hik
      have hlt : i < res.length := by
        rw [hlen]
        exact (List.getElem?_eq_some_iff.mp hit).1
      have hw : (writeResult items res i)[i]? = some (some (wrapper it)) := by
        unfold writeResult
        rw [hit]
        exact List.getElem?_set_self hlt
      rw [List.foldl_cons,
        foldl_writeResult_getElem_not_mem items rest (writeResult items res i)
          i hirest, hw]

/-- For a completion order that is a permutation of the item indices, the
assembled results are positionally the items' captured outcomes. -/
theorem assembleResults_eq_of_perm {E A : Type} (items : List (WorkItem E A))
    (order : List Nat) (h : order.Perm (List.range items.length)) :
    assembleResults items order =
      items.map (fun it => some (wrapper it)) := by
  apply List.ext_getElem?
  intro i
  by_cases hi : i < items.length
  · have hit : items[i]? = some items[i] := List.getElem?_eq_getElem hi
    have hmem : i ∈ order := h.mem_iff.mpr (List.mem_range.mpr hi)
    have hL : (assembleResults items order)[i]? =
        some (some (wrapper items[i])) :=
      foldl_writeResult_getElem_mem items order
        (List.replicate items.length none) i items[i]
        (List.length_replicate items.length none) hmem hit
    rw [hL, List.getElem?_map, hit]
    rfl
  · have hlen : (assembleResults items order).length = items.length := by
      simpa [assembleResults] using
        foldl_writeResult_length items order
          (List.replicate items.length none)
    rw [List.getElem?_eq_none (le_of_not_lt (hlen ▸ hi)),
      List.getElem?_eq_none (by simpa using le_of_not_lt hi)]

/-- C4: for every input sequence of N work items and every completion order
(covering every `max_parallel` bound and scheduling), `parallel_requests`
assembles exactly N outcomes, outcome `i` being the captured result or
exception of input item `i` — positional, not completion, order — and when
no exception was captured it returns exactly that sequence. -/
theorem c4_parallel_requests_positional {E A : Type}
    (items : List (WorkItem E A)) (order : List Nat)
    (h : order.Perm (List.range items.length)) :
    (assembleResults items order).length = items.length ∧
    assembleResults items order =
      items.map (fun it => some (wrapper it)) ∧
    (firstErrorOpt (assembleResults items order) = none →
      parallel_requests items order =
        .ok (items.map (fun it => some (wrapper it)))) := by
  have he := assembleResults_eq_of_perm items order h
  refine ⟨?_, he, ?_⟩
  · rw [he, List.length_map]
  · intro hnone
    simp only [parallel_requests]
    rw [hnone, he]

/-- Witness for C4: three items completed in the order `[2, 0, 1]` still
land at their own input positions. -/
theorem c4_parallel_requests_positional_witness :
    assembleResults
        [Except.ok (1 : Nat), Except.error (7 : Nat), Except.ok 2]
        [2, 0, 1] =
      [some (Except.ok 1), some (Except.error 7), some (Except.ok 2)] :=
  (c4_parallel_requests_positional
    [Except.ok (1 : Nat), Except.error (7 : Nat), Except.ok 2]
    [2, 0, 1] (by decide)).2.1.trans rfl

/-- Scanning with `firstErrorOpt` over the mapped captured outcomes agrees with `firstError`
on the items themselves. -/
theorem firstErrorOpt_map {E A : Type} (items : List (WorkItem E A)) :
    firstErrorOpt (items.map (fun it => some (wrapper it))) =
      firstError items := by
  induction items with
  | nil => rfl
  | cons it rest ih =>
    cases it with
    | ok a => simpa [firstErrorOpt, firstError, wrapper] using ih
    | error e => simp [firstErrorOpt, firstError, wrapper]

/-- Helper: `firstError` is `none` exactly when no item raises. -/
theorem firstError_eq_none_iff {E A : Type} (items : List (WorkItem E A)) :
    firstError items = none ↔ ∀ e : E, Except.error e ∉ items := by
  induction items with
  | nil => simp [firstError]
  | cons it rest ih =>
    cases it with
    | ok a => simp [firstError, ih]
    | error e =>
      constructor
      · intro hnone
        simp [firstError] at hnone
      · intro hall
        exact absurd (List.mem_cons_self _ _) (hall e)

/-- The re-raised error is one of the captured ones: the positionally first. -/
theorem firstError_some_mem {E A : Type} (items : List (WorkItem E A))
    (e : E) (h : firstError items = some e) : Except.error e ∈ items := by
  induction items with
  | nil => exact absurd h (by simp [firstError])
  | cons it rest ih =>
    cases it with
    | ok a =>
      exact List.mem_cons_of_mem _ (ih (by simpa [firstError] using h))
    | error e' =>
      have : e' = e := by simpa [firstError] using h
      rw [this]
      exact List.mem_cons_self _ _

/-- C5: `parallel_requests` captures each item's raised error instead of
propagating it immediately: whatever the completion order, every item's
captured outcome is present at its own index of the assembled results
(computed before any re-raise); only after all items completed is the
positionally first captured error — exactly one — re-raised, and when no
item failed no error is raised and the results are returned. -/
theorem c5_parallel_requests_error_isolation {E A : Type}
    (items : List (WorkItem E A)) (order : List Nat)
    (h : order.Perm (List.range items.length)) :
    (∀ i, i < items.length →
      (assembleResults items order)[i]? =
        (items[i]?).map (fun it => some (wrapper it))) ∧
    parallel_requests items order =
      (match firstError items with
       | some e => Except.error e
       | none => Except.ok (items.map (fun it => some (wrapper it)))) ∧
    (firstError items = none ↔ ∀ e : E, Except.error e ∉ items) ∧
    (∀ e : E, firstError items = some e → Except.error e ∈ items) := by
  have he := assembleResults_eq_of_perm items order h
  refine ⟨?_, ?_, firstError_eq_none_iff items, firstError_some_mem items⟩
  · intro i _
    rw [he, List.getElem?_map]
  · simp only [parallel_requests]
    rw [he, firstErrorOpt_map]

/-- Witness for C5: with items `[ok 1, raise 7, raise 9]` completed in the
order `[1, 2, 0]`, the second failing item's outcome is still captured at
its slot, and the batch re-raises the positionally first error `7`. -/
theorem c5_parallel_requests_error_isolation_witness :
    (assembleResults
        [Except.ok (1 : Nat), Except.error (7 : Nat), Except.error 9]
        [1, 2, 0])[2]? = some (some (Except.error 9)) ∧
    parallel_requests
        [Except.ok (1 : Nat), Except.error (7 : Nat), Except.error 9]
        [1, 2, 0] = Except.error 7 ∧
    Except.error 7 ∈
      [Except.ok (1 : Nat), Except.error (7 : Nat), Except.error 9] := by
  have h := c5_parallel_requests_error_isolation
    [Except.ok (1 : Nat), Except.error (7 : Nat), Except.error 9]
    [1, 2, 0] (by decide)
  exact ⟨(h.1 2 (by decide)).trans rfl, (h.2.1).trans rfl, h.2.2.2 7 rfl⟩

/-- The per-thread session registry of `_request`:
`getattr(threading.current_thread(), "_modrinth_session", None)` /
`setattr(...)`, modelled as a map from thread id to the id of the session
attached to that thread; `nextId` numbers the sessions `_make_session` has
created so far, so distinct creations yield distinct sessions. -/
structure SessionRegistry where
  owner : Nat → Option Nat
  nextId : Nat

/-- The registry before any request ran: no thread has a session. -/
def emptyRegistry : SessionRegistry := ⟨fun _ => none, 0⟩

/-- The session-lookup step of `_request` on thread `tid`: reuse the
thread's own session when it has one, otherwise create a fresh session with
`_make_session` and attach it to the calling thread. -/
def getSession (reg : SessionRegistry) (tid : Nat) : Nat × SessionRegistry :=
  match reg.owner tid with
  | some sid => (sid, reg)
  | none =>
    (reg.nextId,
      ⟨fun t => if t = tid then some reg.nextId else reg.owner t,
        reg.nextId + 1⟩)

/-- Run a sequence of `_request` calls: `trace` lists the issuing thread of
each request in order; the result pairs each request's thread with the
session it used. -/
def runTrace : List Nat → SessionRegistry → List (Nat × Nat)
  | [], _ => []
  | tid :: rest, reg =>
    (tid, (getSession reg tid).1) :: runTrace rest (getSession reg tid).2

/-- The registry after running a sequence of `_request` calls. -/
def runReg : List Nat → SessionRegistry → SessionRegistry
  | [], reg => reg
  | tid :: rest, reg => runReg rest (getSession reg tid).2

/-- Registry invariant: attached session ids were allocated, and no two
threads hold the same session. -/
def RegInv (reg : SessionRegistry) : Prop :=
  (∀ t s, reg.owner t = some s → s < reg.nextId) ∧
  (∀ t t' s, reg.owner t = some s → reg.owner t' = some s → t = t')

/-- The empty registry satisfies the invariant. -/
theorem regInv_empty : RegInv emptyRegistry := by
  constructor
  · intro t s h
    exact absurd h (by simp [emptyRegistry])
  · intro t t' s h _
    exact absurd h (by simp [emptyRegistry])

/-- Step `getSession` preserves the registry invariant. -/
theorem getSession_regInv (reg : SessionRegistry) (tid : Nat)
    (h : RegInv reg) : RegInv (getSession reg tid).2 := by
  cases hown : reg.owner tid with
  | some sid => simpa [getSession, hown] using h
  | none =>
    constructor
    · intro t s hts
      simp only [getSession, hown] at hts ⊢
      by_cases ht : t = tid
      · simp [ht] at hts
        omega
      · simp [ht] at hts
        exact Nat.lt_succ_of_lt (h.1 t s hts)
    · intro t t' s hts hts'
      simp only [getSession, hown] at hts hts'
      by_cases ht : t = tid <;> by_cases ht' : t' = tid
      · rw [ht, ht']
      · simp [ht] at hts
        simp [ht'] at hts'
        exact absurd (h.1 t' s hts') (by omega)
      · simp [ht] at hts
        simp [ht'] at hts'
        exact absurd (h.1 t s hts) (by omega)
      · simp [ht] at hts
        simp [ht'] at hts'
        exact h.2 t t' s hts hts'

/-- The thread that just looked up a session owns it afterwards. -/
theorem getSession_owner_self (reg : SessionRegistry) (tid : Nat) :
    ((getSession reg tid).2).owner tid = some (getSession reg tid).1 := by
  unfold getSession
  cases hown : reg.owner tid with
  | some sid => exact hown
  | none => simp

/-- A session already attached to a thread stays attached, whoever calls. -/
theorem getSession_owner_mono (reg : SessionRegistry) (tid t s : Nat)
    (h : reg.owner t = some s) :
    ((getSession reg tid).2).owner t = some s := by
  unfold getSession
  cases hown : reg.owner tid with
  | some sid => exact h
  | none =>
    by_cases ht : t = tid
    · rw [ht] at h
      exact absurd h (by simp [hown])
    · simpa [ht] using h

/-- Attachments persist across any further sequence of requests. -/
theorem runReg_owner_mono (trace : List Nat) :
    ∀ reg t s, reg.owner t = some s → (runReg trace reg).owner t = some s := by
  induction trace with
  | nil => intro reg t s h; exact h
  | cons tid rest ih =>
    intro reg t s h
    exact ih (getSession reg tid).2 t s (getSession_owner_mono reg tid t s h)

/-- Running any trace preserves the registry invariant. -/
theorem runReg_regInv (trace : List Nat) :
    ∀ reg, RegInv reg → RegInv (runReg trace reg) := by
  induction trace with
  | nil => intro reg h; exact h
  | cons tid rest ih =>
    intro reg h
    exact ih (getSession reg tid).2 (getSession_regInv reg tid h)

/-- Every (thread, session) pair a run emits is recorded in the final
registry: the thread owns that session at the end. -/
theorem runTrace_pairs_owner (trace : List Nat) :
    ∀ reg t s, (t, s) ∈ runTrace trace reg →
      (runReg trace reg).owner t = some s := by
  induction trace with
  | nil =>
    intro reg t s h
    exact absurd h (List.not_mem_nil (t, s))
  | cons tid rest ih =>
    intro reg t s h
    rcases List.mem_cons.mp h with hhead | htail
    · have ht : t = tid := congrArg Prod.fst hhead
      have hs : s = (getSession reg tid).1 := congrArg Prod.snd hhead
      rw [ht, hs]
      exact runReg_owner_mono rest (getSession reg tid).2 tid
        (getSession reg tid).1 (getSession_owner_self reg tid)
    · exact ih (getSession reg tid).2 t s htail

/-- Every thread that issues a request gets some session. -/
theorem runTrace_covers (trace : List Nat) :
    ∀ reg t, t ∈ trace → ∃ s, (t, s) ∈ runTrace trace reg := by
  induction trace with
  | nil =>
    intro reg t h
    exact absurd h (List.not_mem_nil t)
  | cons tid rest ih =>
    intro reg t h
    rcases List.mem_cons.mp h with hhead | htail
    · refine ⟨(getSession reg tid).1, ?_⟩
      rw [hhead, runTrace]
      exact List.mem_cons_self _ _
    · rcases ih (getSession reg tid).2 t htail with ⟨s, hs⟩
      refine ⟨s, ?_⟩
      rw [runTrace]
      exact List.mem_cons_of_mem _ hs

/-- C8: each worker thread has exactly one dedicated transport session.
Along every request trace started from the fresh client: the same thread
always uses the same session (lazily created by its first request — a
thread with no session gets the freshly created one, a thread with one
reuses it without touching the registry); no session is ever used by two
different threads; and every requesting thread has a session. -/
theorem c8_one_dedicated_session_per_thread (trace : List Nat) :
    (∀ t s s', (t, s) ∈ runTrace trace emptyRegistry →
      (t, s') ∈ runTrace trace emptyRegistry → s = s') ∧
    (∀ t t' s, (t, s) ∈ runTrace trace emptyRegistry →
      (t', s) ∈ runTrace trace emptyRegistry → t = t') ∧
    (∀ t, t ∈ trace → ∃ s, (t, s) ∈ runTrace trace emptyRegistry) ∧
    (∀ reg tid, reg.owner tid = none →
      (getSession reg tid).1 = reg.nextId ∧
      ((getSession reg tid).2).nextId = reg.nextId + 1) ∧
    (∀ reg tid s, reg.owner tid = some s → getSession reg tid = (s, reg)) := by
  have hinv : RegInv (runReg trace emptyRegistry) :=
    runReg_regInv trace emptyRegistry regInv_empty
  refine ⟨?_, ?_, runTrace_covers trace emptyRegistry, ?_, ?_⟩
  · intro t s s' h1 h2
    have o1 := runTrace_pairs_owner trace emptyRegistry t s h1
    have o2 := runTrace_pairs_owner trace emptyRegistry t s' h2
    rw [o1] at o2
    exact Option.some_injective Nat o2
  · intro t t' s h1 h2
    exact hinv.2 t t' s (runTrace_pairs_owner trace emptyRegistry t s h1)
      (runTrace_pairs_owner trace emptyRegistry t' s h2)
  · intro reg tid h
    unfold getSession
    rw [h]
    exact ⟨rfl, rfl⟩
  · intro reg tid s h
    unfold getSession
    rw [h]

/-- Witness for C8 on the concrete trace `[0, 1, 0]` (thread 0, thread 1,
thread 0 again): thread 0 reuses its session, thread 1's differs, and both
threads got sessions. -/
theorem c8_one_dedicated_session_per_thread_witness :
    (0 : Nat) = 0 ∧ (1 : Nat) = 1 ∧
    (∃ s, (0, s) ∈ runTrace [0, 1, 0] emptyRegistry) ∧
    (∃ s, (1, s) ∈ runTrace [0, 1, 0] emptyRegistry) := by
  have h := c8_one_dedicated_session_per_thread [0, 1, 0]
  exact ⟨h.1 0 0 0 (by decide) (by decide),
    h.2.1 1 1 1 (by decide) (by decide),
    h.2.2.1 0 (by decide), h.2.2.1 1 (by decide)⟩

/-- Witness for the amended C2: with prior state
`{limit := 300, remaining := 250, reset := 5}`, a response with all three
headers missing keeps `limit` and `remaining` and zeroes `reset`; a
response whose limit header is the unparsable string `"abc"` falls back the
same way. -/
theorem c2_update_ratelimit_fallback_witness :
    (update_ratelimit ⟨300, 250, 5, 0⟩ ⟨none, none, none⟩ 1).limit = 300 ∧
    (update_ratelimit ⟨300, 250, 5, 0⟩ ⟨none, none, none⟩ 1).remaining =
      250 ∧
    (update_ratelimit ⟨300, 250, 5, 0⟩ ⟨none, none, none⟩ 1).reset = 0 ∧
    update_ratelimit ⟨300, 250, 5, 0⟩ ⟨some ("abc"), none, none⟩ 1 =
      ⟨300, 250, 0, 1⟩ := by
  have h1 := c2_update_ratelimit_fallback ⟨300, 250, 5, 0⟩
    ⟨none, none, none⟩ 1
  have h2 := c2_update_ratelimit_fallback ⟨300, 250, 5, 0⟩
    ⟨some ("abc"), none, none⟩ 1
  exact ⟨h1.1 rfl, h1.2.1 rfl, h1.2.2.1 rfl,
    h2.2.2.2 (Or.inl (by decide))⟩
